import Mathlib

/-!
Verification of the safe expression evaluator in `simple_calculator.py`.

The program parses an expression string with the host (CPython) general
expression grammar and walks the resulting tree with `SafeEvaluator`
(an `ast.NodeVisitor`), which whitelists numeric literals, the seven
binary operators `+ - * / // % **`, unary `+`/`-`, and rejects every
other node kind or operator with a `ValueError`.

Modelling conventions:
* Python integers are unbounded, so they are embedded as `ℤ`.
* Python floats are embedded as exact rationals (`ℚ`).  Every concrete
  float appearing in a verified claim is decimally exact, and every claim
  about floats concerns either the kind of the result (int versus float
  versus complex versus error) or a value that is exact in both binary
  floating point and `ℚ`, so IEEE rounding never separates the model from
  the program on a verified statement.
* A complex result (CPython returns one for a negative base raised to a
  non-integral power) has a transcendental payload that is not
  representable in `ℚ`; the model tracks complex results by kind only
  (`Value.complexV`).  No verified claim inspects a complex payload.
* `ZeroDivisionError` and `TypeError` are raised by the host arithmetic,
  not constructed by the repository code, so they are modelled by kind
  only; `ValueError` messages are constructed by the repository code and
  are modelled verbatim.
-/

attribute [local semireducible] Rat.add Rat.sub Rat.mul Rat.inv Rat.ofScientific

namespace SimpleCalculator

/-- Payload of a CPython `ast.Constant` node.  The host grammar can put
integers, floats, booleans, strings, `None`, complex literals (such as
`2j`) and other values into a constant node; `visit_Constant` must
therefore filter them. -/
inductive Const where
  | intC (n : ℤ)
  | floatC (q : ℚ)
  | boolC (b : Bool)
  | strC (s : String)
  | noneC
  | complexC
deriving DecidableEq, Repr

/-- Runtime numeric value of the evaluator: a Python `int`, `float`, or
`complex` (the latter tracked by kind only, see the module comment). -/
inductive Value where
  | intV (n : ℤ)
  | floatV (q : ℚ)
  | complexV
deriving DecidableEq, Repr

/-- Errors escaping `evaluate_expression`: `ValueError` (with the message
built by the repository code), and the host arithmetic errors
`ZeroDivisionError` and `TypeError`, modelled by kind only. -/
inductive EvalErr where
  | valueError (msg : String)
  | zeroDivisionError
  | typeError
deriving DecidableEq, Repr

/-- Binary operator node kinds of the CPython grammar. -/
inductive BinOpKind where
  | add | sub | mult | div | floorDiv | mod | pow
  | bitOr | bitXor | bitAnd | lshift | rshift | matMult
deriving DecidableEq, Repr

/-- Unary operator node kinds of the CPython grammar. -/
inductive UnaryOpKind where
  | uadd | usub | notOp | invert
deriving DecidableEq, Repr

/-- CPython class name of a binary operator node, as it would appear in a
diagnostic. -/
def pyBinOpName : BinOpKind → String
  | .add => "Add" | .sub => "Sub" | .mult => "Mult" | .div => "Div"
  | .floorDiv => "FloorDiv" | .mod => "Mod" | .pow => "Pow"
  | .bitOr => "BitOr" | .bitXor => "BitXor" | .bitAnd => "BitAnd"
  | .lshift => "LShift" | .rshift => "RShift" | .matMult => "MatMult"

/-- Syntax tree as handed to `SafeEvaluator.visit`.  `expression` is the
`ast.Expression` wrapper produced by parsing in eval mode; `num` is the
legacy `ast.Num` node; `other` stands for any node kind without a
dedicated `visit_*` method (`Name`, `Call`, `Compare`, `List`, ...).
`generic_visit` raises immediately using only the class name of such a
node and never visits its children, so foreign nodes are modelled
atomically by their class name. -/
inductive Node where
  | expression (body : Node)
  | binOp (op : BinOpKind) (left right : Node)
  | unaryOp (op : UnaryOpKind) (operand : Node)
  | constant (value : Const)
  | num (value : Const)
  | other (className : String)
deriving DecidableEq, Repr

/-- Numeric view of an `int` or `float` value used for mixed-mode
promotion. -/
def toQ : Value → ℚ
  | .intV n => (n : ℚ)
  | .floatV q => q
  | .complexV => 0

/-- Whether a value is the `int` zero or the `float` zero (the payload of
a complex value is not modelled, but no verified claim divides by a
complex value). -/
def isZero : Value → Bool
  | .intV n => n = 0
  | .floatV q => q = 0
  | .complexV => false

/-- Whether a value is a negative `int` or `float`. -/
def isNeg : Value → Bool
  | .intV n => n < 0
  | .floatV q => q < 0
  | .complexV => false

/-- Semantics of `operator.add` on evaluator values: int when both
operands are int, complex when either is, float otherwise. -/
def addV : Value → Value → Except EvalErr Value
  | .complexV, _ => .ok .complexV
  | _, .complexV => .ok .complexV
  | .intV a, .intV b => .ok (.intV (a + b))
  | a, b => .ok (.floatV (toQ a + toQ b))

/-- Semantics of `operator.sub`. -/
def subV : Value → Value → Except EvalErr Value
  | .complexV, _ => .ok .complexV
  | _, .complexV => .ok .complexV
  | .intV a, .intV b => .ok (.intV (a - b))
  | a, b => .ok (.floatV (toQ a - toQ b))

/-- Semantics of `operator.mul`. -/
def mulV : Value → Value → Except EvalErr Value
  | .complexV, _ => .ok .complexV
  | _, .complexV => .ok .complexV
  | .intV a, .intV b => .ok (.intV (a * b))
  | a, b => .ok (.floatV (toQ a * toQ b))

/-- Semantics of `operator.truediv`: a zero right operand raises
`ZeroDivisionError`; otherwise the result is always a float (or complex
when a complex operand is involved), never an int. -/
def divV (a b : Value) : Except EvalErr Value :=
  if isZero b then .error .zeroDivisionError
  else match a, b with
    | .complexV, _ => .ok .complexV
    | _, .complexV => .ok .complexV
    | _, _ => .ok (.floatV (toQ a / toQ b))

/-- Semantics of `operator.floordiv`: complex operands raise `TypeError`
(the host checks the type before the zero divisor); a zero right operand
raises `ZeroDivisionError`; int`//`int is flooring division (`Int.fdiv`);
mixed mode floors the true quotient and returns it as a float. -/
def floorDivV : Value → Value → Except EvalErr Value
  | .complexV, _ => .error .typeError
  | _, .complexV => .error .typeError
  | .intV a, .intV b =>
      if b = 0 then .error .zeroDivisionError else .ok (.intV (a.fdiv b))
  | a, b =>
      if toQ b = 0 then .error .zeroDivisionError
      else .ok (.floatV ((⌊toQ a / toQ b⌋ : ℤ) : ℚ))

/-- Semantics of `operator.mod`: complex operands raise `TypeError`; a
zero right operand raises `ZeroDivisionError`; int`%`int is the flooring
remainder (`Int.fmod`, sign of the divisor); mixed mode is the flooring
remainder over the rationals. -/
def modV : Value → Value → Except EvalErr Value
  | .complexV, _ => .error .typeError
  | _, .complexV => .error .typeError
  | .intV a, .intV b =>
      if b = 0 then .error .zeroDivisionError else .ok (.intV (a.fmod b))
  | a, b =>
      if toQ b = 0 then .error .zeroDivisionError
      else .ok (.floatV (toQ a - toQ b * ((⌊toQ a / toQ b⌋ : ℤ) : ℚ)))

/-- Semantics of `operator.pow`, following CPython:
* int `**` nonnegative int is exact integer power;
* `0 ** e` for negative `e` raises `ZeroDivisionError`;
* int `**` negative int (nonzero base) is a float reciprocal power;
* in float mode, an integral exponent gives a float power of either sign
  of base, while a non-integral exponent of a negative base yields a
  complex number (CPython returns complex here, it does not raise);
* a non-integral exponent of a positive base is irrational in general and
  hence not representable in `ℚ`: the model returns a float whose payload
  is not meaningful (`0`); no verified claim depends on that payload;
* complex operands propagate as complex. -/
def powV : Value → Value → Except EvalErr Value
  | .complexV, _ => .ok .complexV
  | _, .complexV => .ok .complexV
  | .intV a, .intV b =>
      if 0 ≤ b then .ok (.intV (a ^ b.toNat))
      else if a = 0 then .error .zeroDivisionError
      else .ok (.floatV ((a : ℚ) ^ b))
  | a, b =>
      let x := toQ a
      let y := toQ b
      if x = 0 then
        if y < 0 then .error .zeroDivisionError
        else if y = 0 then .ok (.floatV 1)
        else .ok (.floatV 0)
      else if y.den = 1 then .ok (.floatV (x ^ y.num))
      else if x < 0 then .ok .complexV
      else .ok (.floatV 0)

/-- The `_binary_operators` mapping of `SafeEvaluator`: the seven
whitelisted binary operator kinds and their semantics; `none` encodes
absence from the dictionary. -/
def binary_operators : BinOpKind → Option (Value → Value → Except EvalErr Value)
  | .add => some addV
  | .sub => some subV
  | .mult => some mulV
  | .div => some divV
  | .floorDiv => some floorDivV
  | .mod => some modV
  | .pow => some powV
  | _ => none

/-- Semantics of `operator.pos` (unary `+`): identity. -/
def posV : Value → Except EvalErr Value := fun v => .ok v

/-- Semantics of `operator.neg` (unary `-`). -/
def negV : Value → Except EvalErr Value
  | .intV n => .ok (.intV (-n))
  | .floatV q => .ok (.floatV (-q))
  | .complexV => .ok .complexV

/-- The `_unary_operators` mapping of `SafeEvaluator`. -/
def unary_operators : UnaryOpKind → Option (Value → Except EvalErr Value)
  | .uadd => some posV
  | .usub => some negV
  | _ => none

/-- The body of `SafeEvaluator.visit_Constant`: booleans are rejected
first (they are subclasses of int in the host), then any payload that is
not an int or float is rejected, and numeric payloads pass through. -/
def visit_Constant : Const → Except EvalErr Value
  | .boolC _ => .error (.valueError "Valores booleanos não são permitidos")
  | .intC n => .ok (.intV n)
  | .floatC q => .ok (.floatV q)
  | _ => .error (.valueError "Apenas números são permitidos")

/-- The `SafeEvaluator.visit` dispatch: `visit_Expression` forwards to the
body; `visit_BinOp` evaluates both operands first and only then checks
the operator against the whitelist; `visit_UnaryOp` likewise;
`visit_Constant` and `visit_Num` check the literal payload; every other
node kind falls through to `generic_visit`, which raises a `ValueError`
naming the node class. -/
def visit : Node → Except EvalErr Value
  | .expression body => visit body
  | .binOp op l r =>
      match visit l with
      | .error e => .error e
      | .ok left =>
        match visit r with
        | .error e => .error e
        | .ok right =>
          match binary_operators op with
          | none => .error (.valueError "Operador binário não suportado")
          | some f => f left right
  | .unaryOp op x =>
      match visit x with
      | .error e => .error e
      | .ok operand =>
        match unary_operators op with
        | none => .error (.valueError "Operador unário não suportado")
        | some f => f operand
  | .constant c => visit_Constant c
  | .num c => visit_Constant c
  | .other className =>
      .error (.valueError ("Expressão contém elemento não permitido: " ++ className))

/-- Whether a constant payload is declared exactly as an int or a float
(booleans are excluded even though the host type system would accept them
structurally). -/
def numericConst : Const → Bool
  | .intC _ => true
  | .floatC _ => true
  | _ => false

/-- The whitelist of the specification: a tree is whitelisted when every
node is the expression wrapper, a binary operation with one of the seven
whitelisted operators, a unary sign, or a numeric (int or float) literal. -/
def whitelisted : Node → Bool
  | .expression b => whitelisted b
  | .binOp op l r => (binary_operators op).isSome && whitelisted l && whitelisted r
  | .unaryOp op x => (unary_operators op).isSome && whitelisted x
  | .constant c => numericConst c
  | .num c => numericConst c
  | .other _ => false

/-- Whether a tree contains a boolean-typed literal anywhere. -/
def containsBool : Node → Bool
  | .expression b => containsBool b
  | .binOp _ l r => containsBool l || containsBool r
  | .unaryOp _ x => containsBool x
  | .constant (.boolC _) => true
  | .constant _ => false
  | .num (.boolC _) => true
  | .num _ => false
  | .other _ => false

/-- Mathematical integer semantics of the pure-integer fragment: trees
built from integer literals and the binary operators `+ - * // %` (with
nonzero divisor) and `**` (with nonnegative exponent).  Division is
mathematical flooring division, the remainder follows the sign of the
divisor, and all values are unbounded integers. -/
def mathEval : Node → Option ℤ
  | .constant (.intC n) => some n
  | .binOp op l r =>
    match mathEval l, mathEval r with
    | some a, some b =>
      match op with
      | .add => some (a + b)
      | .sub => some (a - b)
      | .mult => some (a * b)
      | .floorDiv => if b = 0 then none else some (a.fdiv b)
      | .mod => if b = 0 then none else some (a.fmod b)
      | .pow => if 0 ≤ b then some (a ^ b.toNat) else none
      | _ => none
    | _, _ => none
  | _ => none

/-! The repository feeds `ast.parse(expression, mode="eval")` — the host
CPython parser, whose code is not part of this repository — into the
evaluator.  The parser below is the stand-in required for text-level
claims. -/

/-- Modelled from the spec: lexical token of the expression grammar
(section 3 of the spec).  The host parser source is not in the
repository; the spec fixes the token set NUMBER, the seven operator
symbols, and parentheses (EOF is the end of the token list here). -/
inductive Tok where
  | num (value : Const)
  | plus | minus | star | slash | dslash | percent | dstar
  | lparen | rparen
deriving DecidableEq, Repr

/-- Parse failure reasons listed by the spec (section 4.1): an
unrecognized token, unbalanced parentheses, an operator where an operand
is expected (which also covers empty input), and trailing input after a
complete expression.  The model adds `outOfFuel` for the recursion bound,
which is never reached from the entry point. -/
inductive ParseErr where
  | unrecognizedToken
  | unbalanced
  | operandExpected
  | trailingInput
  | outOfFuel
deriving DecidableEq, Repr

/-- Splits the longest run of leading decimal digits from a character
list. -/
def takeDigits : List Char → List Char × List Char
  | [] => ([], [])
  | c :: cs =>
    if c.isDigit then
      let (ds, rest) := takeDigits cs
      (c :: ds, rest)
    else ([], c :: cs)

/-- Decimal value of a digit run. -/
def digitsToNat (ds : List Char) : ℕ :=
  ds.foldl (fun a c => 10 * a + (c.toNat - Char.toNat (Char.ofNat 48))) 0

/-- Modelled from the spec: the tokenizer (section 4.1).  It skips
whitespace, reads integer literals (digits) and float literals (digits,
one decimal point, optional digits), matches the two-character operators
greedily before their one-character heads, and fails on any other
character.  Fuel bounds the recursion; each step consumes at least one
character, so an initial fuel of one more than the length never runs
out. -/
def tokenizeF : ℕ → List Char → Except ParseErr (List Tok)
  | 0, _ => .error .outOfFuel
  | _, [] => .ok []
  | fuel + 1, c :: cs =>
    if c.isWhitespace then tokenizeF fuel cs
    else if c.isDigit then
      let (ds, rest) := takeDigits (c :: cs)
      match rest with
      | Char.ofNat 46 :: rest2 =>
        let (fs, rest3) := takeDigits rest2
        match tokenizeF fuel rest3 with
        | .error e => .error e
        | .ok ts =>
            .ok (.num (.floatC ((digitsToNat ds : ℚ) +
              (digitsToNat fs : ℚ) / (10 : ℚ) ^ fs.length)) :: ts)
      | _ =>
        match tokenizeF fuel rest with
        | .error e => .error e
        | .ok ts => .ok (.num (.intC (digitsToNat ds)) :: ts)
    else
      let push (t : Tok) (cs2 : List Char) : Except ParseErr (List Tok) :=
        match tokenizeF fuel cs2 with
        | .error e => .error e
        | .ok ts => .ok (t :: ts)
      match c, cs with
      | '*', '*' :: cs2 => push .dstar cs2
      | '/', '/' :: cs2 => push .dslash cs2
      | '*', _ => push .star cs
      | '/', _ => push .slash cs
      | '+', _ => push .plus cs
      | '-', _ => push .minus cs
      | '%', _ => push .percent cs
      | '(', _ => push .lparen cs
      | ')', _ => push .rparen cs
      | _, _ => .error .unrecognizedToken

/-- Tokenizes a source string. -/
def tokenize (s : String) : Except ParseErr (List Tok) :=
  tokenizeF (s.toList.length + 1) s.toList

mutual

/-- Modelled from the spec: additive level of the precedence-climbing
grammar — `expr := term (("+" | "-") term)*`, left-associative. -/
def parseE : ℕ → List Tok → Except ParseErr (Node × List Tok)
  | 0, _ => .error .outOfFuel
  | fuel + 1, ts =>
    match parseT fuel ts with
    | .error e => .error e
    | .ok (n, ts1) => parseERest fuel n ts1

/-- Left-associative folding of the additive operators. -/
def parseERest : ℕ → Node → List Tok → Except ParseErr (Node × List Tok)
  | 0, _, _ => .error .outOfFuel
  | fuel + 1, acc, ts =>
    match ts with
    | .plus :: ts1 =>
      match parseT fuel ts1 with
      | .error e => .error e
      | .ok (n, ts2) => parseERest fuel (.binOp .add acc n) ts2
    | .minus :: ts1 =>
      match parseT fuel ts1 with
      | .error e => .error e
      | .ok (n, ts2) => parseERest fuel (.binOp .sub acc n) ts2
    | _ => .ok (acc, ts)

/-- Modelled from the spec: multiplicative level —
`term := factor (("*" | "/" | "//" | "%") factor)*`, left-associative. -/
def parseT : ℕ → List Tok → Except ParseErr (Node × List Tok)
  | 0, _ => .error .outOfFuel
  | fuel + 1, ts =>
    match parseF fuel ts with
    | .error e => .error e
    | .ok (n, ts1) => parseTRest fuel n ts1

/-- Left-associative folding of the multiplicative operators. -/
def parseTRest : ℕ → Node → List Tok → Except ParseErr (Node × List Tok)
  | 0, _, _ => .error .outOfFuel
  | fuel + 1, acc, ts =>
    match ts with
    | .star :: ts1 =>
      match parseF fuel ts1 with
      | .error e => .error e
      | .ok (n, ts2) => parseTRest fuel (.binOp .mult acc n) ts2
    | .slash :: ts1 =>
      match parseF fuel ts1 with
      | .error e => .error e
      | .ok (n, ts2) => parseTRest fuel (.binOp .div acc n) ts2
    | .dslash :: ts1 =>
      match parseF fuel ts1 with
      | .error e => .error e
      | .ok (n, ts2) => parseTRest fuel (.binOp .floorDiv acc n) ts2
    | .percent :: ts1 =>
      match parseF fuel ts1 with
      | .error e => .error e
      | .ok (n, ts2) => parseTRest fuel (.binOp .mod acc n) ts2
    | _ => .ok (acc, ts)

/-- Modelled from the spec: unary level — `factor := ("+" | "-") factor |
power`; a leading sign is applied to a full power expression, so
`-2 ** 2` is `-(2 ** 2)`. -/
def parseF : ℕ → List Tok → Except ParseErr (Node × List Tok)
  | 0, _ => .error .outOfFuel
  | fuel + 1, ts =>
    match ts with
    | .plus :: ts1 =>
      match parseF fuel ts1 with
      | .error e => .error e
      | .ok (n, ts2) => .ok (.unaryOp .uadd n, ts2)
    | .minus :: ts1 =>
      match parseF fuel ts1 with
      | .error e => .error e
      | .ok (n, ts2) => .ok (.unaryOp .usub n, ts2)
    | _ => parseP fuel ts

/-- Modelled from the spec: power level — `power := atom ("**" factor)?`,
right-associative because the right side re-enters the unary level. -/
def parseP : ℕ → List Tok → Except ParseErr (Node × List Tok)
  | 0, _ => .error .outOfFuel
  | fuel + 1, ts =>
    match parseA fuel ts with
    | .error e => .error e
    | .ok (a, ts1) =>
      match ts1 with
      | .dstar :: ts2 =>
        match parseF fuel ts2 with
        | .error e => .error e
        | .ok (b, ts3) => .ok (.binOp .pow a b, ts3)
      | _ => .ok (a, ts1)

/-- Modelled from the spec: atoms — a numeric literal or a parenthesized
expression; a missing operand or an unclosed parenthesis fails. -/
def parseA : ℕ → List Tok → Except ParseErr (Node × List Tok)
  | 0, _ => .error .outOfFuel
  | fuel + 1, ts =>
    match ts with
    | .num c :: ts1 => .ok (.constant c, ts1)
    | .lparen :: ts1 =>
      match parseE fuel ts1 with
      | .error e => .error e
      | .ok (e, ts2) =>
        match ts2 with
        | .rparen :: ts3 => .ok (e, ts3)
        | _ => .error .unbalanced
    | _ => .error .operandExpected

end

/-- Modelled from the spec: `parse(text)` — tokenize, parse one full
expression, and fail on trailing tokens.  The fuel is generous: every
level of the grammar consumes fuel at most six times between token
consumptions. -/
def parse (s : String) : Except ParseErr Node :=
  match tokenize s with
  | .error e => .error e
  | .ok ts =>
    match parseE (8 * ts.length + 8) ts with
    | .error e => .error e
    | .ok (n, []) => .ok n
    | .ok (_, _ :: _) => .error .trailingInput

/-- The entry point `evaluate_expression`: parse the text (a parse
failure surfaces as the ValueError with message Expressão inválida,
and the evaluator is never entered), then visit the wrapped tree. -/
def evaluate_expression (s : String) : Except EvalErr Value :=
  match parse s with
  | .error _ => .error (.valueError "Expressão inválida")
  | .ok n => visit (.expression n)

/-- Whether the first list is an initial segment of the second. -/
def listStarts : List Char → List Char → Bool
  | [], _ => true
  | _ :: _, [] => false
  | p :: ps, c :: cs => p = c && listStarts ps cs

/-- Whether the pattern occurs as a contiguous run inside the list. -/
def listHasSub (pat : List Char) : List Char → Bool
  | [] => listStarts pat []
  | c :: cs => listStarts pat (c :: cs) || listHasSub pat cs

/-- Whether `pat` occurs as a substring of `hay`; used to state that an
error message does or does not name a construct. -/
def strContainsSub (hay pat : String) : Bool :=
  listHasSub pat.toList hay.toList

/-! ## Helper lemmas -/

/-- A successful visit only ever arises from a fully whitelisted tree:
`generic_visit` rejects every foreign node kind, `visit_BinOp` and
`visit_UnaryOp` reject operators outside their dictionaries, and
`visit_Constant` rejects non-numeric payloads. -/
theorem visit_ok_whitelisted : ∀ e : Node, ∀ v, visit e = Except.ok v → whitelisted e = true := by
  intro e
  induction e with
  | expression b ih =>
      intro v h
      simp only [visit] at h
      simp only [whitelisted]
      exact ih v h
  | binOp op l r ihl ihr =>
      intro v h
      simp only [visit] at h
      cases hl : visit l with
      | error e => simp only [hl] at h; exact Except.noConfusion h
      | ok lv =>
        simp only [hl] at h
        cases hr : visit r with
        | error e => simp only [hr] at h; exact Except.noConfusion h
        | ok rv =>
          simp only [hr] at h
          cases hop : binary_operators op with
          | none => simp only [hop] at h; exact Except.noConfusion h
          | some f =>
            simp [whitelisted, hop, ihl lv hl, ihr rv hr]
  | unaryOp op x ih =>
      intro v h
      simp only [visit] at h
      cases hx : visit x with
      | error e => simp only [hx] at h; exact Except.noConfusion h
      | ok xv =>
        simp only [hx] at h
        cases hop : unary_operators op with
        | none => simp only [hop] at h; exact Except.noConfusion h
        | some f =>
          simp [whitelisted, hop, ih xv hx]
  | constant c =>
      intro v h
      simp only [visit] at h
      cases c with
      | intC n => simp [whitelisted, numericConst]
      | floatC q => simp [whitelisted, numericConst]
      | boolC b => exact Except.noConfusion h
      | strC s => exact Except.noConfusion h
      | noneC => exact Except.noConfusion h
      | complexC => exact Except.noConfusion h
  | num c =>
      intro v h
      simp only [visit] at h
      cases c with
      | intC n => simp [whitelisted, numericConst]
      | floatC q => simp [whitelisted, numericConst]
      | boolC b => exact Except.noConfusion h
      | strC s => exact Except.noConfusion h
      | noneC => exact Except.noConfusion h
      | complexC => exact Except.noConfusion h
  | other name =>
      intro v h
      exact Except.noConfusion h

/-- A tree containing a non-whitelisted construct always evaluates to an
error. -/
theorem not_whitelisted_error (e : Node) (hw : whitelisted e = false) :
    ∃ err, visit e = Except.error err := by
  cases hv : visit e with
  | error err => exact ⟨err, rfl⟩
  | ok v =>
      have := visit_ok_whitelisted e v hv
      rw [this] at hw
      exact Bool.noConfusion hw

/-- A whitelisted tree contains no boolean literal. -/
theorem whitelisted_no_bool : ∀ e : Node, whitelisted e = true → containsBool e = false := by
  intro e
  induction e with
  | expression b ih =>
      intro h
      simp only [whitelisted] at h
      simp only [containsBool]
      exact ih h
  | binOp op l r ihl ihr =>
      intro h
      simp only [whitelisted, Bool.and_eq_true] at h
      simp [containsBool, ihl h.1.2, ihr h.2]
  | unaryOp op x ih =>
      intro h
      simp only [whitelisted, Bool.and_eq_true] at h
      simp [containsBool, ih h.2]
  | constant c =>
      intro h
      cases c <;> simp_all [whitelisted, numericConst, containsBool]
  | num c =>
      intro h
      cases c <;> simp_all [whitelisted, numericConst, containsBool]
  | other name =>
      intro h
      simp [whitelisted] at h

/-- The evaluator computes the exact mathematical integer semantics on
the pure-integer fragment: no overflow and no rounding, for arbitrarily
large values. -/
theorem mathEval_visit : ∀ e : Node, ∀ z : ℤ, mathEval e = some z → visit e = Except.ok (Value.intV z) := by
  intro e
  induction e with
  | expression b ih => intro z h; simp [mathEval] at h
  | unaryOp op x ih => intro z h; simp [mathEval] at h
  | num c => intro z h; simp [mathEval] at h
  | other name => intro z h; simp [mathEval] at h
  | constant c =>
      intro z h
      cases c <;> simp only [mathEval] at h
      case intC n =>
        cases h
        rfl
      all_goals exact Option.noConfusion h
  | binOp op l r ihl ihr =>
      intro z h
      simp only [mathEval] at h
      cases hl : mathEval l with
      | none => rw [hl] at h; exact Option.noConfusion h
      | some a =>
        rw [hl] at h
        cases hr : mathEval r with
        | none => rw [hr] at h; exact Option.noConfusion h
        | some b =>
          rw [hr] at h
          have hvl := ihl a hl
          have hvr := ihr b hr
          cases op
          case add =>
            cases h
            simp [visit, hvl, hvr, binary_operators, addV]
          case sub =>
            cases h
            simp [visit, hvl, hvr, binary_operators, subV]
          case mult =>
            cases h
            simp [visit, hvl, hvr, binary_operators, mulV]
          case floorDiv =>
            by_cases hz : b = 0
            · simp [hz] at h
            · simp only [hz, if_false] at h
              cases h
              simp [visit, hvl, hvr, binary_operators, floorDivV, hz]
          case mod =>
            by_cases hz : b = 0
            · simp [hz] at h
            · simp only [hz, if_false] at h
              cases h
              simp [visit, hvl, hvr, binary_operators, modV, hz]
          case pow =>
            by_cases hnn : 0 ≤ b
            · simp only [hnn, if_true] at h
              cases h
              simp [visit, hvl, hvr, binary_operators, powV, hnn]
            · simp [hnn] at h
          all_goals exact Option.noConfusion h

/-- Flooring remainder bounds for a negative divisor: the remainder lies
in the half-open interval from the divisor (exclusive) to zero
(inclusive), by case analysis on the core definition of `Int.fmod`. -/
theorem fmod_neg_bounds (a b : ℤ) (hb : b < 0) : b < a.fmod b ∧ a.fmod b ≤ 0 := by
  obtain ⟨n, rfl⟩ : ∃ n : ℕ, b = Int.negSucc n := by
    cases b with
    | ofNat m => exact absurd hb (by exact Int.not_lt.mpr (Int.ofNat_nonneg m))
    | negSucc n => exact ⟨n, rfl⟩
  cases a with
  | ofNat m =>
      cases m with
      | zero =>
          constructor
          · exact hb
          · exact le_rfl
      | succ m =>
          have hdef : (Int.ofNat (m + 1)).fmod (Int.negSucc n) =
              Int.subNatNat (m % (n + 1)) n := rfl
          rw [hdef, Int.subNatNat_eq_coe]
          have hlt : m % (n + 1) < n + 1 := Nat.mod_lt _ (Nat.succ_pos n)
          constructor
          · simp only [Int.negSucc_eq]
            omega
          · omega
  | negSucc m =>
      have hdef : (Int.negSucc m).fmod (Int.negSucc n) =
          -((((m + 1) % (n + 1) : ℕ) : ℤ)) := rfl
      rw [hdef]
      have hlt : (m + 1) % (n + 1) < n + 1 := Nat.mod_lt _ (Nat.succ_pos n)
      simp only [Int.negSucc_eq]
      omega

/-- Flooring division agrees with the mathematical floor of the true
quotient, for either sign of the divisor. -/
theorem fdiv_eq_floor (a b : ℤ) (hb : b ≠ 0) : a.fdiv b = ⌊(a : ℚ) / (b : ℚ)⌋ := by
  have hsum : b * a.fdiv b + a.fmod b = a := Int.fdiv_add_fmod a b
  have hbQ : (b : ℚ) ≠ 0 := Int.cast_ne_zero.mpr hb
  have hx : (a : ℚ) / (b : ℚ) = (a.fdiv b : ℚ) + (a.fmod b : ℚ) / (b : ℚ) := by
    have ha : (a : ℚ) = (b : ℚ) * (a.fdiv b : ℚ) + (a.fmod b : ℚ) := by
      exact_mod_cast hsum.symm
    rw [ha, add_div, mul_div_cancel_left₀ _ hbQ]
  have hfrac : 0 ≤ (a.fmod b : ℚ) / (b : ℚ) ∧ (a.fmod b : ℚ) / (b : ℚ) < 1 := by
    rcases lt_or_gt_of_ne hb with hneg | hpos
    · obtain ⟨h1, h2⟩ := fmod_neg_bounds a b hneg
      have hbQ2 : (b : ℚ) < 0 := by exact_mod_cast hneg
      have hr1 : (b : ℚ) < (a.fmod b : ℚ) := by exact_mod_cast h1
      have hr2 : (a.fmod b : ℚ) ≤ 0 := by exact_mod_cast h2
      constructor
      · rw [← neg_div_neg_eq]
        apply div_nonneg <;> linarith
      · rw [div_lt_one_iff]
        right; right
        exact ⟨hbQ2, hr1⟩
    · have h1 : 0 ≤ a.fmod b := Int.fmod_nonneg' a hpos
      have h2 : a.fmod b < b := Int.fmod_lt_of_pos a hpos
      have hbQ2 : (0 : ℚ) < (b : ℚ) := by exact_mod_cast hpos
      constructor
      · apply div_nonneg _ (le_of_lt hbQ2)
        exact_mod_cast h1
      · rw [div_lt_one hbQ2]
        exact_mod_cast h2
  symm
  rw [Int.floor_eq_iff]
  constructor
  · rw [hx]
    linarith [hfrac.1]
  · rw [hx]
    linarith [hfrac.2]

/-- A character list of whitespace only tokenizes to the empty token
list, given fuel exceeding its length. -/
theorem tokenizeF_ws : ∀ fuel : ℕ, ∀ cs : List Char, cs.length < fuel →
    (∀ c ∈ cs, c.isWhitespace = true) → tokenizeF fuel cs = Except.ok [] := by
  intro fuel
  induction fuel with
  | zero => intro cs h hw; exact absurd h (Nat.not_lt_zero _)
  | succ n ih =>
      intro cs hlen hw
      cases cs with
      | nil => rfl
      | cons c cs =>
          have hc : c.isWhitespace = true := hw c (List.mem_cons_self c cs)
          have hstep : tokenizeF (n + 1) (c :: cs) = tokenizeF n cs := by
            simp [tokenizeF, hc]
          rw [hstep]
          exact ih cs (Nat.lt_of_succ_lt_succ (by simpa using hlen))
            (fun x hx => hw x (List.mem_cons_of_mem c hx))

/-- An empty or whitespace-only input fails to parse: there is no first
operand. -/
theorem parse_ws (s : String) (hw : ∀ c ∈ s.toList, c.isWhitespace = true) :
    parse s = Except.error ParseErr.operandExpected := by
  have htok : tokenize s = Except.ok [] :=
    tokenizeF_ws (s.toList.length + 1) s.toList (Nat.lt_succ_self _) hw
  simp only [parse, htok]
  rfl

/-- Any parse failure surfaces from the entry point as the ValueError
with message Expressão inválida; the evaluator is not entered. -/
theorem parse_error_surfaced (s : String) (e : ParseErr) (h : parse s = Except.error e) :
    evaluate_expression s = Except.error (EvalErr.valueError "Expressão inválida") := by
  simp only [evaluate_expression, h]

/-! ## Claims -/

/-- C1: a successful evaluation arises only from a tree built
exclusively of whitelisted constructs (numeric literals, the seven
whitelisted binary operators, unary sign, the expression wrapper), and
every tree containing a construct outside the whitelist makes
`evaluate_expression`s evaluator raise an error instead of computing
with that construct. -/
theorem claim_C1_whitelist_safety :
    (∀ e v, visit e = Except.ok v → whitelisted e = true) ∧
    (∀ e, whitelisted e = false → ∃ err, visit e = Except.error err) :=
  ⟨visit_ok_whitelisted, not_whitelisted_error⟩

/-- Witness for C1: the foreign node kind Call is rejected, and the
whitelist direction applies at a concrete successful evaluation. -/
theorem claim_C1_witness :
    whitelisted (Node.other "Call") = false ∧
    ∃ err, visit (Node.other "Call") = Except.error err :=
  ⟨by decide, claim_C1_whitelist_safety.2 (Node.other "Call") (by decide)⟩

/-- C2 (counterexample to the claim as stated): evaluating
`(-8) ** 0.5` does not raise any error — in particular no DomainError,
which the code never raises anywhere — but returns a complex-number
value, exactly as CPython exponentiation does for a negative base and
non-integral exponent. -/
theorem claim_C2_counterexample :
    evaluate_expression "(-8) ** 0.5" = Except.ok Value.complexV := by rfl

/-- C2 (amended): for every negative base (int or float) and fractional
(non-integer-valued) float exponent, the power operation succeeds with a
complex-number result; no error is raised (the code has no DomainError
path at all). -/
theorem claim_C2_neg_base_frac_pow_complex :
    (∀ x y : ℚ, x < 0 → y.den ≠ 1 →
        powV (Value.floatV x) (Value.floatV y) = Except.ok Value.complexV) ∧
    (∀ (n : ℤ) (y : ℚ), n < 0 → y.den ≠ 1 →
        powV (Value.intV n) (Value.floatV y) = Except.ok Value.complexV) ∧
    evaluate_expression "(-8) ** 0.5" = Except.ok Value.complexV := by
  refine ⟨fun x y hx hy => ?_, fun n y hn hy => ?_, by rfl⟩
  · simp [powV, toQ, hy, ne_of_lt hx, hx]
  · have hx : ((n : ℚ)) < 0 := by exact_mod_cast hn
    simp [powV, toQ, hy, ne_of_lt hx, hx]

/-- Witness for C2 (amended) at base `-8` and exponent `1/2`. -/
theorem claim_C2_witness :
    (-8 : ℚ) < 0 ∧ ((1 : ℚ)/2).den ≠ 1 ∧
    powV (Value.floatV (-8)) (Value.floatV ((1 : ℚ)/2)) = Except.ok Value.complexV :=
  ⟨by norm_num, by decide,
    claim_C2_neg_base_frac_pow_complex.1 (-8) ((1 : ℚ)/2) (by norm_num) (by decide)⟩

/-- C3: `/`, `//` and `%` with a zero right operand raise
ZeroDivisionError (for `//` and `%` with an int or float left operand —
a complex left operand raises TypeError before the zero check, as in the
host), `0 ** e` raises ZeroDivisionError for negative `e`, and the
concrete expressions from the spec all fail accordingly; no result value
is produced in any of these cases. -/
theorem claim_C3_division_by_zero :
    (∀ v w, isZero w = true → divV v w = Except.error EvalErr.zeroDivisionError) ∧
    (∀ v w, v ≠ Value.complexV → isZero w = true →
        floorDivV v w = Except.error EvalErr.zeroDivisionError) ∧
    (∀ v w, v ≠ Value.complexV → isZero w = true →
        modV v w = Except.error EvalErr.zeroDivisionError) ∧
    (∀ v w, isZero v = true → isNeg w = true →
        powV v w = Except.error EvalErr.zeroDivisionError) ∧
    evaluate_expression "2 / 0" = Except.error EvalErr.zeroDivisionError ∧
    evaluate_expression "2 // 0" = Except.error EvalErr.zeroDivisionError ∧
    evaluate_expression "2 % 0" = Except.error EvalErr.zeroDivisionError ∧
    evaluate_expression "0 ** -1" = Except.error EvalErr.zeroDivisionError := by
  refine ⟨fun v w h => ?_, fun v w hv h => ?_, fun v w hv h => ?_,
    fun v w hz hn => ?_, rfl, rfl, rfl, rfl⟩
  · simp [divV, h]
  · cases w <;> simp [isZero] at h
    all_goals subst h
    all_goals cases v
    case intV.intV a => simp [floorDivV]
    case intV.floatV q => simp [floorDivV, toQ]
    case intV.complexV => exact absurd rfl hv
    case floatV.intV a => simp [floorDivV, toQ]
    case floatV.floatV q => simp [floorDivV, toQ]
    case floatV.complexV => exact absurd rfl hv
  · cases w <;> simp [isZero] at h
    all_goals subst h
    all_goals cases v
    case intV.intV a => simp [modV]
    case intV.floatV q => simp [modV, toQ]
    case intV.complexV => exact absurd rfl hv
    case floatV.intV a => simp [modV, toQ]
    case floatV.floatV q => simp [modV, toQ]
    case floatV.complexV => exact absurd rfl hv
  · cases v <;> simp [isZero] at hz
    all_goals subst hz
    all_goals cases w <;> simp [isNeg] at hn
    case intV.intV n => simp [powV, Int.not_le.mpr hn]
    case intV.floatV q => simp [powV, toQ, hn]
    case floatV.intV n =>
      have : ((n : ℚ)) < 0 := by exact_mod_cast hn
      simp [powV, toQ, this]
    case floatV.floatV q => simp [powV, toQ, hn]

/-- Witness for C3 at the concrete division `2 / 0`. -/
theorem claim_C3_witness :
    isZero (Value.intV 0) = true ∧
    divV (Value.intV 2) (Value.intV 0) = Except.error EvalErr.zeroDivisionError :=
  ⟨by decide, claim_C3_division_by_zero.1 (Value.intV 2) (Value.intV 0) (by decide)⟩

/-- C4: true division of any two integers with nonzero divisor yields a
float value (the `floatV` kind, never `intV`), equal to the exact
quotient, including when the divisor divides the dividend exactly:
`4 / 2` yields the float 2.0 and not the int 2. -/
theorem claim_C4_truediv_always_float :
    (∀ a b : ℤ, b ≠ 0 →
        divV (Value.intV a) (Value.intV b) =
          Except.ok (Value.floatV ((a : ℚ) / (b : ℚ)))) ∧
    evaluate_expression "4 / 2" = Except.ok (Value.floatV 2) := by
  refine ⟨fun a b hb => ?_, by rfl⟩
  simp [divV, isZero, hb, toQ]

/-- Witness for C4 at `4 / 2`. -/
theorem claim_C4_witness :
    (2 : ℤ) ≠ 0 ∧
    divV (Value.intV 4) (Value.intV 2) =
      Except.ok (Value.floatV (((4 : ℤ) : ℚ) / ((2 : ℤ) : ℚ))) :=
  ⟨by decide, claim_C4_truediv_always_float.1 4 2 (by decide)⟩

/-- C5: for all integers `a` and `b` with `b ≠ 0`, the evaluator
computes `a // b` as the floor of the true quotient and `a % b` as the
flooring remainder, whose sign follows the divisor (nonnegative and
below `b` for positive `b`, nonpositive and above `b` for negative `b`),
and the Euclidean identity `b * (a // b) + (a % b) = a` holds. -/
theorem claim_C5_floordiv_mod_conventions :
    ∀ a b : ℤ, b ≠ 0 →
      visit (Node.binOp BinOpKind.floorDiv (Node.constant (Const.intC a))
          (Node.constant (Const.intC b))) = Except.ok (Value.intV (a.fdiv b)) ∧
      visit (Node.binOp BinOpKind.mod (Node.constant (Const.intC a))
          (Node.constant (Const.intC b))) = Except.ok (Value.intV (a.fmod b)) ∧
      a.fdiv b = ⌊(a : ℚ) / (b : ℚ)⌋ ∧
      (0 < b → 0 ≤ a.fmod b ∧ a.fmod b < b) ∧
      (b < 0 → b < a.fmod b ∧ a.fmod b ≤ 0) ∧
      b * a.fdiv b + a.fmod b = a := by
  intro a b hb
  refine ⟨?_, ?_, fdiv_eq_floor a b hb,
    fun hpos => ⟨Int.fmod_nonneg' a hpos, Int.fmod_lt_of_pos a hpos⟩,
    fun hneg => fmod_neg_bounds a b hneg, Int.fdiv_add_fmod a b⟩
  · simp [visit, visit_Constant, binary_operators, floorDivV, hb]
  · simp [visit, visit_Constant, binary_operators, modV, hb]

/-- Witness for C5 at `-7` and `2` (a case separating flooring from
truncating conventions). -/
theorem claim_C5_witness :
    (2 : ℤ) ≠ 0 ∧
    (visit (Node.binOp BinOpKind.floorDiv (Node.constant (Const.intC (-7)))
        (Node.constant (Const.intC 2))) = Except.ok (Value.intV ((-7 : ℤ).fdiv 2)) ∧
     visit (Node.binOp BinOpKind.mod (Node.constant (Const.intC (-7)))
        (Node.constant (Const.intC 2))) = Except.ok (Value.intV ((-7 : ℤ).fmod 2)) ∧
     (-7 : ℤ).fdiv 2 = ⌊((-7 : ℤ) : ℚ) / ((2 : ℤ) : ℚ)⌋ ∧
     (0 < (2 : ℤ) → 0 ≤ (-7 : ℤ).fmod 2 ∧ (-7 : ℤ).fmod 2 < 2) ∧
     ((2 : ℤ) < 0 → (2 : ℤ) < (-7 : ℤ).fmod 2 ∧ (-7 : ℤ).fmod 2 ≤ 0) ∧
     (2 : ℤ) * ((-7 : ℤ).fdiv 2) + (-7 : ℤ).fmod 2 = -7) :=
  ⟨by decide, claim_C5_floordiv_mod_conventions (-7) 2 (by decide)⟩

/-- C6: every parse failure — empty or whitespace-only input,
unbalanced parentheses, an unrecognized token, an operator where an
operand is expected, trailing input after a complete expression —
surfaces from `evaluate_expression` as the ValueError with message
Expressão inválida, and the evaluator is never entered (the error branch
returns before `visit` is called). -/
theorem claim_C6_invalid_expression :
    (∀ s e, parse s = Except.error e →
        evaluate_expression s = Except.error (EvalErr.valueError "Expressão inválida")) ∧
    (∀ s : String, (∀ c ∈ s.toList, c.isWhitespace = true) →
        evaluate_expression s = Except.error (EvalErr.valueError "Expressão inválida")) ∧
    parse "" = Except.error ParseErr.operandExpected ∧
    parse "2 +" = Except.error ParseErr.operandExpected ∧
    parse "(2 + 3" = Except.error ParseErr.unbalanced ∧
    parse "2 $ 3" = Except.error ParseErr.unrecognizedToken ∧
    parse "2 3" = Except.error ParseErr.trailingInput ∧
    evaluate_expression "" = Except.error (EvalErr.valueError "Expressão inválida") ∧
    evaluate_expression "2 +" = Except.error (EvalErr.valueError "Expressão inválida") ∧
    evaluate_expression "(2 + 3" = Except.error (EvalErr.valueError "Expressão inválida") ∧
    evaluate_expression "2 $ 3" = Except.error (EvalErr.valueError "Expressão inválida") ∧
    evaluate_expression "2 3" = Except.error (EvalErr.valueError "Expressão inválida") :=
  ⟨fun s e h => parse_error_surfaced s e h,
   fun s hw => parse_error_surfaced s ParseErr.operandExpected (parse_ws s hw),
   rfl, rfl, rfl, rfl, rfl, rfl, rfl, rfl, rfl, rfl⟩

/-- Witness for C6 at the whitespace-only input. -/
theorem claim_C6_witness :
    (∀ c ∈ ("  " : String).toList, c.isWhitespace = true) ∧
    evaluate_expression "  " = Except.error (EvalErr.valueError "Expressão inválida") :=
  ⟨by decide, claim_C6_invalid_expression.2.1 "  " (by decide)⟩

/-- C7: a boolean-typed literal is never accepted as a number —
`visit_Constant` rejects it before the structural int check can see it,
the tree of `True + 1` evaluates to that error rather than to 2, and no
successful evaluation arises from a tree containing a boolean literal. -/
theorem claim_C7_bool_literal_rejected :
    (∀ b, visit_Constant (Const.boolC b) =
        Except.error (EvalErr.valueError "Valores booleanos não são permitidos")) ∧
    visit (Node.expression (Node.binOp BinOpKind.add (Node.constant (Const.boolC true))
        (Node.constant (Const.intC 1)))) =
      Except.error (EvalErr.valueError "Valores booleanos não são permitidos") ∧
    (∀ e v, visit e = Except.ok v → containsBool e = false) := by
  refine ⟨fun b => ?_, rfl, fun e v h => whitelisted_no_bool e (visit_ok_whitelisted e v h)⟩
  cases b <;> rfl

/-- Witness for C7: the universal parts applied at concrete inputs. -/
theorem claim_C7_witness :
    visit (Node.constant (Const.intC 5)) = Except.ok (Value.intV 5) ∧
    containsBool (Node.constant (Const.intC 5)) = false :=
  ⟨rfl, claim_C7_bool_literal_rejected.2.2 (Node.constant (Const.intC 5)) (Value.intV 5) rfl⟩

/-- C8 (counterexample to the claim as stated): for the non-whitelisted
binary operator BitOr (the expression `1 | 2`), the raised error carries
the fixed generic message and does not name the rejected operator —
neither the class name BitOr nor the symbol occurs in it. -/
theorem claim_C8_counterexample :
    visit (Node.binOp BinOpKind.bitOr (Node.constant (Const.intC 1))
        (Node.constant (Const.intC 2))) =
      Except.error (EvalErr.valueError "Operador binário não suportado") ∧
    strContainsSub "Operador binário não suportado" "BitOr" = false ∧
    strContainsSub "Operador binário não suportado" "|" = false :=
  ⟨rfl, by decide, by decide⟩

/-- C8 (amended): every non-whitelisted construct is rejected with an
error and never coerced; the error for a foreign node kind names that
kind (the class name is appended to the message), while a non-whitelisted
binary or unary operator inside an otherwise evaluable operation raises a
fixed generic unsupported-operator message that does not name the
specific operator. -/
theorem claim_C8_unsupported_construct_errors :
    (∀ name, visit (Node.other name) =
        Except.error (EvalErr.valueError
          ("Expressão contém elemento não permitido: " ++ name))) ∧
    (∀ op l r lv rv, binary_operators op = none → visit l = Except.ok lv →
        visit r = Except.ok rv →
        visit (Node.binOp op l r) =
          Except.error (EvalErr.valueError "Operador binário não suportado")) ∧
    (∀ op x xv, unary_operators op = none → visit x = Except.ok xv →
        visit (Node.unaryOp op x) =
          Except.error (EvalErr.valueError "Operador unário não suportado")) ∧
    (∀ op, binary_operators op = none →
        strContainsSub "Operador binário não suportado" (pyBinOpName op) = false) := by
  refine ⟨fun name => rfl, fun op l r lv rv hop hl hr => ?_,
    fun op x xv hop hx => ?_, fun op hop => ?_⟩
  · simp [visit, hl, hr, hop]
  · simp [visit, hx, hop]
  · cases op <;> first
      | exact Option.noConfusion hop
      | decide

/-- Witness for C8 (amended) at the BitOr operation on two literals. -/
theorem claim_C8_witness :
    binary_operators BinOpKind.bitOr = none ∧
    visit (Node.constant (Const.intC 1)) = Except.ok (Value.intV 1) ∧
    visit (Node.constant (Const.intC 2)) = Except.ok (Value.intV 2) ∧
    visit (Node.binOp BinOpKind.bitOr (Node.constant (Const.intC 1))
        (Node.constant (Const.intC 2))) =
      Except.error (EvalErr.valueError "Operador binário não suportado") :=
  ⟨rfl, rfl, rfl,
    claim_C8_unsupported_construct_errors.2.1 BinOpKind.bitOr
      (Node.constant (Const.intC 1)) (Node.constant (Const.intC 2))
      (Value.intV 1) (Value.intV 2) rfl rfl rfl⟩

/-- C9: exponentiation is right-associative and binds tighter than the
multiplicative operators: `2 ** 3 ** 2` is 512 (that is,
`2 ** (3 ** 2)`), not 64, and `2 * 3 ** 2` and `2 ** 3 * 4` group the
power first. -/
theorem claim_C9_pow_right_assoc_precedence :
    evaluate_expression "2 ** 3 ** 2" = Except.ok (Value.intV 512) ∧
    evaluate_expression "2 ** (3 ** 2)" = Except.ok (Value.intV 512) ∧
    evaluate_expression "(2 ** 3) ** 2" = Except.ok (Value.intV 64) ∧
    evaluate_expression "2 * 3 ** 2" = Except.ok (Value.intV 18) ∧
    evaluate_expression "2 ** 3 * 4" = Except.ok (Value.intV 32) :=
  ⟨rfl, rfl, rfl, rfl, rfl⟩

/-- C10: on the pure-integer fragment (integer literals combined by
`+ - * // %` with nonzero divisors and `**` with nonnegative exponent)
the evaluator returns the exact mathematical integer, with unbounded
precision — in particular `2 ** 100` is computed exactly. -/
theorem claim_C10_exact_integer_arithmetic :
    (∀ e z, mathEval e = some z → visit e = Except.ok (Value.intV z)) ∧
    evaluate_expression "2 ** 100" = Except.ok (Value.intV (2 ^ 100)) :=
  ⟨mathEval_visit, rfl⟩

/-- Witness for C10 at the concrete power `2 ** 10`. -/
theorem claim_C10_witness :
    mathEval (Node.binOp BinOpKind.pow (Node.constant (Const.intC 2))
        (Node.constant (Const.intC 10))) = some 1024 ∧
    visit (Node.binOp BinOpKind.pow (Node.constant (Const.intC 2))
        (Node.constant (Const.intC 10))) = Except.ok (Value.intV 1024) :=
  ⟨by decide,
    claim_C10_exact_integer_arithmetic.1
      (Node.binOp BinOpKind.pow (Node.constant (Const.intC 2))
        (Node.constant (Const.intC 10))) 1024 (by decide)⟩

end SimpleCalculator
